import Mathlib

/-!
Shallow embedding of `src/power_rank_calculator.py` (Power Rank Calculator).

Python floats are modelled as exact rationals (`ℚ`); every rounding step of
the source (`round(x, 2)`, `math.ceil`) is modelled explicitly.  Python dicts
are modelled as association lists in insertion order (Python dicts preserve
insertion order, and the source iterates them in that order).  Fallible
operations (`KeyError`, `ValueError`) are modelled with `Except`.
-/

namespace PowerRank

/-- `THRESHOLDS` from the source: descending tier boundaries. -/
def THRESHOLDS : List ℚ := [125, 100, 90, 80, 70, 60, 50, 40, 30, 20, 0]

/-- `METRIC_MAX_POINTS` from the source, in declaration order. -/
def METRIC_MAX_POINTS : List (String × ℚ) :=
  [("opps_pct", 10),
   ("ppvga_pct", 30),
   ("internet_pct", 20),
   ("accessories_pct", 10),
   ("protection_pct", 5),
   ("rate_plan_pct", 5),
   ("next_up_pct", 5),
   ("event_opps_pct", 5),
   ("plus1_pct", 5),
   ("csat_pct", 5)]

/-- `DEFAULT_MULTIPLIERS` from the source. -/
def DEFAULT_MULTIPLIERS : List (ℚ × ℚ) :=
  [(125, 1), (100, 1), (90, 9/10), (80, 8/10), (70, 7/10), (60, 6/10),
   (50, 5/10), (40, 4/10), (30, 3/10), (20, 2/10), (0, 0)]

/-- `FIVE_POINT_MULTIPLIERS` from the source. -/
def FIVE_POINT_MULTIPLIERS : List (ℚ × ℚ) :=
  [(125, 1), (100, 1), (90, 1), (80, 1), (70, 8/10), (60, 6/10),
   (50, 4/10), (40, 2/10), (30, 0), (20, 0), (0, 0)]

/-- A per-metric rule entry: the multiplier map and the sub-50 gate
(the two keys every `METRIC_RULES` entry of the source carries). -/
structure MetricRule where
  multipliers : List (ℚ × ℚ)
  allow_below_50 : Bool
deriving DecidableEq, Repr

/-- `METRIC_RULES` from the source. -/
def METRIC_RULES : List (String × MetricRule) :=
  [("protection_pct", ⟨FIVE_POINT_MULTIPLIERS, false⟩),
   ("rate_plan_pct", ⟨FIVE_POINT_MULTIPLIERS, false⟩),
   ("next_up_pct", ⟨FIVE_POINT_MULTIPLIERS, false⟩),
   ("event_opps_pct", ⟨FIVE_POINT_MULTIPLIERS, false⟩),
   ("plus1_pct", ⟨FIVE_POINT_MULTIPLIERS, false⟩),
   ("csat_pct", ⟨FIVE_POINT_MULTIPLIERS, false⟩)]

/-- Python `round(q, 2)` on the exact rational value. -/
def round2 (q : ℚ) : ℚ := (round (q * 100) : ℚ) / 100

/-- The exceptions the core can raise: `KeyError` for an unknown metric in
`percent_to_points`, `ValueError` for `days_in_month <= 0` in
`needed_to_target`. -/
inductive CalcError where
  | unknownMetric (name : String)
  | invalidDays
deriving DecidableEq, Repr

/-- Rule resolution of the source (`METRIC_RULES.get(metric_name, {})` followed
by `.get("multipliers", DEFAULT_MULTIPLIERS)` / `.get("allow_below_50", False)`):
a missing entry resolves to the default map with the gate off. -/
def resolveRule (rules : List (String × MetricRule)) (name : String) : MetricRule :=
  (rules.lookup name).getD ⟨DEFAULT_MULTIPLIERS, false⟩

/-- `multipliers.get(threshold, 0.0)` from the source. -/
def multOf (m : List (ℚ × ℚ)) (t : ℚ) : ℚ := (m.lookup t).getD 0

/-- `percent_to_points` from the source, generalized over the rules table it
reads (the source reads the module-level `METRIC_RULES`). -/
def percent_to_points_with (rules : List (String × MetricRule)) (name : String)
    (percent : Option ℚ) : Except CalcError ℚ :=
  match percent with
  | none => .ok 0
  | some p =>
    match METRIC_MAX_POINTS.lookup name with
    | none => .error (.unknownMetric name)
    | some maxPts =>
      if p < 50 ∧ (resolveRule rules name).allow_below_50 = false then .ok 0
      else
        match THRESHOLDS.find? (fun t => decide (t ≤ p)) with
        | some t => .ok (round2 (maxPts * multOf (resolveRule rules name).multipliers t))
        | none => .ok 0

/-- `percent_to_points` from the source, with the module-level `METRIC_RULES`. -/
def percent_to_points (name : String) (percent : Option ℚ) : Except CalcError ℚ :=
  percent_to_points_with METRIC_RULES name percent

/-- The `Record` dataclass from the source. -/
structure Record where
  data : List (String × Option ℚ)
  date : String
  errors : List String

/-- `record.data.get(name)`: `none` both for a missing key and an explicit
`None` value. -/
def getData (r : Record) (name : String) : Option ℚ := (r.data.lookup name).getD none

/-- `metric.replace("_pct", "_points")` from the source. -/
def pointsKey (metric : String) : String := metric.replace "_pct" "_points"

/-- Python dict assignment `d[k] = v`: replace in place when the key exists,
append otherwise. -/
def setAssoc (l : List (String × ℚ)) (k : String) (v : ℚ) : List (String × ℚ) :=
  if l.any (fun kv => kv.1 == k) then
    l.map (fun kv => if kv.1 == k then (k, v) else kv)
  else l ++ [(k, v)]

/-- The scoring loop of `compute_points`: one `(points_key, points)` entry per
metric of the given list, in order. -/
def computePointsList (r : Record) : List (String × ℚ) → Except CalcError (List (String × ℚ))
  | [] => .ok []
  | (m, _) :: rest => do
    let v ← percent_to_points m (getData r m)
    let tail ← computePointsList r rest
    .ok ((pointsKey m, v) :: tail)

/-- `compute_points` from the source: score every metric, then apply the HTP
rule (halve `protection_points` when `htp_pct` is present and `< 6.5`). -/
def compute_points (r : Record) : Except CalcError (List (String × ℚ)) := do
  let pts ← computePointsList r METRIC_MAX_POINTS
  match getData r "htp_pct" with
  | some h =>
    if h < 6.5 then
      .ok (setAssoc pts "protection_points" (round2 (((pts.lookup "protection_points").getD 0) / 2)))
    else .ok pts
  | none => .ok pts

/-- `compute_power_rank` from the source. -/
def compute_power_rank (points : List (String × ℚ)) : ℚ × ℚ :=
  let total := round2 (points.map (fun kv => kv.2)).sum
  (total, round2 (total / 100 * 10))

/-- `needed_to_target` from the source. -/
def needed_to_target (current_value goal : ℚ) (day_of_month days_in_month : ℤ)
    (target_pct : ℚ) : Except CalcError ℤ :=
  if days_in_month ≤ 0 then .error .invalidDays
  else
    let daily_target := goal / (days_in_month : ℚ)
    let needed_by_today := daily_target * (day_of_month : ℚ) * (target_pct / 100)
    .ok (max 0 ⌈needed_by_today - current_value⌉)

/-- One entry of the `recommendations` list built by `calculate_needed_by_date`. -/
structure Recommendation where
  metric : String
  current_percent : ℚ
  next_threshold : ℚ
  point_gain : ℚ
  needed_more_by_today : ℤ
deriving DecidableEq, Repr

/-- The next-threshold scan of `calculate_needed_by_date`: first `t` of the
descending `THRESHOLDS` list with `current_percent < t` that is not gated
away (`t < 50` is skipped unless `allow_below_50`). -/
def nextThreshold (allow : Bool) (p : ℚ) : Option ℚ :=
  THRESHOLDS.find? (fun t => decide (p < t) && (decide (50 ≤ t) || allow))

/-- Modelled from the spec's words, for comparison with the source's
`nextThreshold`: "scan tier boundaries ascending-significance — the LOWEST
boundary strictly greater than `currentPercent`" that passes the
`allow_below_50` gate. -/
def nextThresholdSpecLowest (allow : Bool) (p : ℚ) : Option ℚ :=
  THRESHOLDS.reverse.find? (fun t => decide (p < t) && (decide (50 ≤ t) || allow))

/-- The body of the per-metric loop of `calculate_needed_by_date`: the
recommendation for one metric, or `none` when the metric is skipped. -/
def recFor (goals current : List (String × ℚ)) (day_of_month days_in_month : ℤ)
    (metric : String) : Except CalcError (Option Recommendation) :=
  match goals.lookup metric with
  | none => .ok none
  | some goal_value =>
    let current_value := (current.lookup metric).getD 0
    let current_percent := if goal_value = 0 then 0 else current_value / goal_value * 100
    match percent_to_points metric (some current_percent) with
    | .error e => .error e
    | .ok current_metric_points =>
      match nextThreshold (resolveRule METRIC_RULES metric).allow_below_50 current_percent with
      | none => .ok none
      | some nt =>
        match percent_to_points metric (some nt) with
        | .error e => .error e
        | .ok next_points =>
          if round2 (max 0 (next_points - current_metric_points)) ≤ 0 then .ok none
          else
            match needed_to_target current_value goal_value day_of_month days_in_month nt with
            | .error e => .error e
            | .ok required =>
              .ok (some ⟨metric, round2 current_percent, nt,
                round2 (max 0 (next_points - current_metric_points)), required⟩)

/-- The per-metric loop of `calculate_needed_by_date` over a metric list,
collecting recommendations in declaration order. -/
def buildRecs (goals current : List (String × ℚ)) (day_of_month days_in_month : ℤ) :
    List (String × ℚ) → Except CalcError (List Recommendation)
  | [] => .ok []
  | (m, _) :: rest => do
    let r? ← recFor goals current day_of_month days_in_month m
    let rest' ← buildRecs goals current day_of_month days_in_month rest
    .ok (match r? with | some r => r :: rest' | none => rest')

/-- Python's stable sort by `point_gain` with `reverse=True`: insert before the
first element with a strictly smaller gain, after all elements with a greater
or equal gain met so far. -/
def insertByGainDesc (r : Recommendation) : List Recommendation → List Recommendation
  | [] => [r]
  | x :: xs =>
    if r.point_gain < x.point_gain then x :: insertByGainDesc r xs
    else r :: x :: xs

/-- `recommendations.sort(key=..., reverse=True)`: stable descending sort. -/
def sortByGainDesc (l : List Recommendation) : List Recommendation :=
  l.foldr insertByGainDesc []

/-- The dict returned by `calculate_needed_by_date`. -/
structure Plan where
  target_rank : ℚ
  target_points : ℚ
  current_points : ℚ
  shortfall_points : ℚ
  recommendations : List Recommendation
deriving DecidableEq, Repr

/-- `calculate_needed_by_date` from the source. -/
def calculate_needed_by_date (goals current : List (String × ℚ))
    (day_of_month days_in_month : ℤ) (target_rank : ℚ) : Except CalcError Plan := do
  let current_record : Record := ⟨current.map (fun kv => (kv.1, some kv.2)), "", []⟩
  let current_points_map ← compute_points current_record
  let current_total := (compute_power_rank current_points_map).1
  let target_points := target_rank / 10 * 100
  let shortfall := max 0 (round2 (target_points - current_total))
  let recs ← buildRecs goals current day_of_month days_in_month METRIC_MAX_POINTS
  .ok ⟨target_rank, round2 target_points, current_total, shortfall, sortByGainDesc recs⟩

/-! ### Helper lemmas -/

theorem exbind_ok {α β : Type} (a : α) (f : α → Except CalcError β) :
    (Except.ok a >>= f) = f a := rfl

/-- Keys of `METRIC_MAX_POINTS` are pairwise distinct, so membership determines
the lookup result. -/
theorem lookup_of_mem_MMP {name : String} {maxPts : ℚ}
    (h : (name, maxPts) ∈ METRIC_MAX_POINTS) :
    METRIC_MAX_POINTS.lookup name = some maxPts := by
  fin_cases h <;> rfl

/-- Every metric of `METRIC_MAX_POINTS` resolves to a rule with the sub-50 gate
off (`METRIC_RULES` only ever sets `allow_below_50` to `False`). -/
theorem allow_false_of_mem_MMP {name : String} {maxPts : ℚ}
    (h : (name, maxPts) ∈ METRIC_MAX_POINTS) :
    (resolveRule METRIC_RULES name).allow_below_50 = false := by
  fin_cases h <;> rfl

theorem THRESHOLDS_desc : THRESHOLDS.Pairwise (fun a b => b ≤ a) := by
  with_unfolding_all decide

/-- On a descending list, `find?` with predicate `· ≤ p` returns a maximum
element among those `≤ p`. -/
theorem find_le_isMax {l : List ℚ} (hl : l.Pairwise (fun a b => b ≤ a)) {p t : ℚ}
    (h : l.find? (fun u => decide (u ≤ p)) = some t) :
    t ≤ p ∧ ∀ u ∈ l, u ≤ p → u ≤ t := by
  induction l with
  | nil => simp [List.find?] at h
  | cons a l ih =>
    by_cases hap : a ≤ p
    · rw [List.find?_cons_of_pos _ (by simpa using hap)] at h
      obtain rfl : a = t := by injection h
      refine ⟨hap, fun u hu hup => ?_⟩
      rcases List.mem_cons.1 hu with rfl | hu
      · exact le_refl _
      · exact (List.pairwise_cons.1 hl).1 u hu
    · rw [List.find?_cons_of_neg _ (by simpa using hap)] at h
      obtain ⟨ht, hmax⟩ := ih (List.pairwise_cons.1 hl).2 h
      refine ⟨ht, fun u hu hup => ?_⟩
      rcases List.mem_cons.1 hu with rfl | hu
      · exact absurd hup hap
      · exact hmax u hu hup

/-- For `50 ≤ p` the tier scan of `percent_to_points` finds a boundary, and it
is the greatest boundary `≤ p`. -/
theorem tier_find_spec {p : ℚ} (hp : (50:ℚ) ≤ p) :
    ∃ t, THRESHOLDS.find? (fun u => decide (u ≤ p)) = some t ∧ t ∈ THRESHOLDS ∧
      t ≤ p ∧ ∀ u ∈ THRESHOLDS, u ≤ p → u ≤ t := by
  cases hf : THRESHOLDS.find? (fun u => decide (u ≤ p)) with
  | none =>
    exfalso
    have h50 : (50:ℚ) ∈ THRESHOLDS := by
      simp [THRESHOLDS]
    have := List.find?_eq_none.1 hf 50 h50
    simp [hp] at this
  | some t =>
    obtain ⟨ht, hmax⟩ := find_le_isMax THRESHOLDS_desc hf
    exact ⟨t, rfl, List.mem_of_find?_eq_some hf, ht, hmax⟩

/-- `percent_to_points` on an absent percentage. -/
theorem ptp_none (name : String) : percent_to_points name none = .ok 0 := rfl

/-- `percent_to_points` on an unknown metric identifier. -/
theorem ptp_unknown {name : String} (p : ℚ)
    (h : METRIC_MAX_POINTS.lookup name = none) :
    percent_to_points name (some p) = .error (.unknownMetric name) := by
  unfold percent_to_points percent_to_points_with
  rw [h]

/-- `percent_to_points` in the gated sub-50 branch. -/
theorem ptp_below50 {name : String} {maxPts p : ℚ}
    (hlk : METRIC_MAX_POINTS.lookup name = some maxPts) (hp : p < 50)
    (hal : (resolveRule METRIC_RULES name).allow_below_50 = false) :
    percent_to_points name (some p) = .ok 0 := by
  unfold percent_to_points percent_to_points_with
  rw [hlk]
  exact if_pos ⟨hp, hal⟩

/-- `percent_to_points` in the tier-lookup branch. -/
theorem ptp_tier {name : String} {maxPts p t : ℚ}
    (hlk : METRIC_MAX_POINTS.lookup name = some maxPts)
    (hcond : ¬(p < 50 ∧ (resolveRule METRIC_RULES name).allow_below_50 = false))
    (hfind : THRESHOLDS.find? (fun u => decide (u ≤ p)) = some t) :
    percent_to_points name (some p) =
      .ok (round2 (maxPts * multOf (resolveRule METRIC_RULES name).multipliers t)) := by
  simp only [percent_to_points, percent_to_points_with, hlk, if_neg hcond, hfind]

/-- Every value `percent_to_points` returns for a known metric is either `0` or
a rounded tier value of that metric. -/
theorem ptp_cases {name : String} {maxPts : ℚ} {perc : Option ℚ} {v : ℚ}
    (hlk : METRIC_MAX_POINTS.lookup name = some maxPts)
    (h : percent_to_points name perc = .ok v) :
    v = 0 ∨ ∃ t ∈ THRESHOLDS,
      v = round2 (maxPts * multOf (resolveRule METRIC_RULES name).multipliers t) := by
  cases perc with
  | none =>
    left
    have : (Except.ok (ε := CalcError) (0:ℚ)) = .ok v := h
    exact (Except.ok.injEq _ _ ▸ this).symm
  | some p =>
    by_cases hcond : p < 50 ∧ (resolveRule METRIC_RULES name).allow_below_50 = false
    · simp only [percent_to_points, percent_to_points_with, hlk, if_pos hcond] at h
      exact Or.inl (Except.ok.inj h).symm
    · cases hf : THRESHOLDS.find? (fun u => decide (u ≤ p)) with
      | none =>
        simp only [percent_to_points, percent_to_points_with, hlk, if_neg hcond, hf] at h
        exact Or.inl (Except.ok.inj h).symm
      | some t =>
        simp only [percent_to_points, percent_to_points_with, hlk, if_neg hcond, hf] at h
        exact Or.inr ⟨t, List.mem_of_find?_eq_some hf, (Except.ok.inj h).symm⟩

/-- Known metrics always score without an exception. -/
theorem ptp_ok {name : String} {maxPts : ℚ}
    (hlk : METRIC_MAX_POINTS.lookup name = some maxPts) (perc : Option ℚ) :
    ∃ v, percent_to_points name perc = .ok v := by
  cases perc with
  | none => exact ⟨0, rfl⟩
  | some p =>
    by_cases hcond : p < 50 ∧ (resolveRule METRIC_RULES name).allow_below_50 = false
    · exact ⟨0, ptp_below50 hlk hcond.1 hcond.2⟩
    · cases hf : THRESHOLDS.find? (fun u => decide (u ≤ p)) with
      | none =>
        refine ⟨0, ?_⟩
        simp only [percent_to_points, percent_to_points_with, hlk, if_neg hcond, hf]
      | some t => exact ⟨_, ptp_tier hlk hcond hf⟩

/-- Concrete bound check: every tier value of every configured metric lies in
`[0, maxPts]`. -/
theorem tier_bounds : ∀ pr ∈ METRIC_MAX_POINTS, ∀ t ∈ THRESHOLDS,
    0 ≤ round2 (pr.2 * multOf (resolveRule METRIC_RULES pr.1).multipliers t) ∧
    round2 (pr.2 * multOf (resolveRule METRIC_RULES pr.1).multipliers t) ≤ pr.2 := by
  with_unfolding_all decide

/-- Concrete monotonicity check: tier values of every configured metric are
monotone in the boundary. -/
theorem tier_mono : ∀ pr ∈ METRIC_MAX_POINTS, ∀ t1 ∈ THRESHOLDS, ∀ t2 ∈ THRESHOLDS,
    t1 ≤ t2 →
    round2 (pr.2 * multOf (resolveRule METRIC_RULES pr.1).multipliers t1) ≤
      round2 (pr.2 * multOf (resolveRule METRIC_RULES pr.1).multipliers t2) := by
  with_unfolding_all decide

/-- Bounds for any value `percent_to_points` returns on a known metric. -/
theorem ptp_bounds {name : String} {maxPts : ℚ} {perc : Option ℚ} {v : ℚ}
    (hmem : (name, maxPts) ∈ METRIC_MAX_POINTS)
    (h : percent_to_points name perc = .ok v) : 0 ≤ v ∧ v ≤ maxPts := by
  have hmax : 0 ≤ maxPts := by fin_cases hmem <;> norm_num
  rcases ptp_cases (lookup_of_mem_MMP hmem) h with rfl | ⟨t, htm, rfl⟩
  · exact ⟨le_refl 0, hmax⟩
  · exact tier_bounds (name, maxPts) hmem t htm

/-- The scoring loop of `compute_points` over the full metric list: one `ok`
value per metric, in declaration order. -/
theorem computePointsList_eq (r : Record) :
    ∃ v1 v2 v3 v4 v5 v6 v7 v8 v9 v10 : ℚ,
      percent_to_points "opps_pct" (getData r "opps_pct") = .ok v1 ∧
      percent_to_points "ppvga_pct" (getData r "ppvga_pct") = .ok v2 ∧
      percent_to_points "internet_pct" (getData r "internet_pct") = .ok v3 ∧
      percent_to_points "accessories_pct" (getData r "accessories_pct") = .ok v4 ∧
      percent_to_points "protection_pct" (getData r "protection_pct") = .ok v5 ∧
      percent_to_points "rate_plan_pct" (getData r "rate_plan_pct") = .ok v6 ∧
      percent_to_points "next_up_pct" (getData r "next_up_pct") = .ok v7 ∧
      percent_to_points "event_opps_pct" (getData r "event_opps_pct") = .ok v8 ∧
      percent_to_points "plus1_pct" (getData r "plus1_pct") = .ok v9 ∧
      percent_to_points "csat_pct" (getData r "csat_pct") = .ok v10 ∧
      computePointsList r METRIC_MAX_POINTS = .ok
        [("opps_points", v1), ("ppvga_points", v2), ("internet_points", v3),
         ("accessories_points", v4), ("protection_points", v5), ("rate_plan_points", v6),
         ("next_up_points", v7), ("event_opps_points", v8), ("plus1_points", v9),
         ("csat_points", v10)] := by
  obtain ⟨v1, h1⟩ := @ptp_ok "opps_pct" 10 rfl (getData r "opps_pct")
  obtain ⟨v2, h2⟩ := @ptp_ok "ppvga_pct" 30 rfl (getData r "ppvga_pct")
  obtain ⟨v3, h3⟩ := @ptp_ok "internet_pct" 20 rfl (getData r "internet_pct")
  obtain ⟨v4, h4⟩ := @ptp_ok "accessories_pct" 10 rfl (getData r "accessories_pct")
  obtain ⟨v5, h5⟩ := @ptp_ok "protection_pct" 5 rfl (getData r "protection_pct")
  obtain ⟨v6, h6⟩ := @ptp_ok "rate_plan_pct" 5 rfl (getData r "rate_plan_pct")
  obtain ⟨v7, h7⟩ := @ptp_ok "next_up_pct" 5 rfl (getData r "next_up_pct")
  obtain ⟨v8, h8⟩ := @ptp_ok "event_opps_pct" 5 rfl (getData r "event_opps_pct")
  obtain ⟨v9, h9⟩ := @ptp_ok "plus1_pct" 5 rfl (getData r "plus1_pct")
  obtain ⟨v10, h10⟩ := @ptp_ok "csat_pct" 5 rfl (getData r "csat_pct")
  refine ⟨v1, v2, v3, v4, v5, v6, v7, v8, v9, v10,
    h1, h2, h3, h4, h5, h6, h7, h8, h9, h10, ?_⟩
  simp only [METRIC_MAX_POINTS, computePointsList, h1, h2, h3, h4, h5, h6, h7, h8,
    h9, h10, exbind_ok]
  with_unfolding_all rfl

/-- Full characterization of `compute_points`: per-metric tier scores in
declaration order, with only the `protection_points` entry rewritten (halved
and re-rounded) when `htp_pct` is present and `< 6.5`. -/
theorem compute_points_eq (r : Record) :
    ∃ v1 v2 v3 v4 v5 v6 v7 v8 v9 v10 : ℚ,
      percent_to_points "opps_pct" (getData r "opps_pct") = .ok v1 ∧
      percent_to_points "ppvga_pct" (getData r "ppvga_pct") = .ok v2 ∧
      percent_to_points "internet_pct" (getData r "internet_pct") = .ok v3 ∧
      percent_to_points "accessories_pct" (getData r "accessories_pct") = .ok v4 ∧
      percent_to_points "protection_pct" (getData r "protection_pct") = .ok v5 ∧
      percent_to_points "rate_plan_pct" (getData r "rate_plan_pct") = .ok v6 ∧
      percent_to_points "next_up_pct" (getData r "next_up_pct") = .ok v7 ∧
      percent_to_points "event_opps_pct" (getData r "event_opps_pct") = .ok v8 ∧
      percent_to_points "plus1_pct" (getData r "plus1_pct") = .ok v9 ∧
      percent_to_points "csat_pct" (getData r "csat_pct") = .ok v10 ∧
      compute_points r = .ok
        (match getData r "htp_pct" with
         | some h =>
           if h < 6.5 then
             [("opps_points", v1), ("ppvga_points", v2), ("internet_points", v3),
              ("accessories_points", v4), ("protection_points", round2 (v5 / 2)),
              ("rate_plan_points", v6), ("next_up_points", v7), ("event_opps_points", v8),
              ("plus1_points", v9), ("csat_points", v10)]
           else
             [("opps_points", v1), ("ppvga_points", v2), ("internet_points", v3),
              ("accessories_points", v4), ("protection_points", v5), ("rate_plan_points", v6),
              ("next_up_points", v7), ("event_opps_points", v8), ("plus1_points", v9),
              ("csat_points", v10)]
         | none =>
             [("opps_points", v1), ("ppvga_points", v2), ("internet_points", v3),
              ("accessories_points", v4), ("protection_points", v5), ("rate_plan_points", v6),
              ("next_up_points", v7), ("event_opps_points", v8), ("plus1_points", v9),
              ("csat_points", v10)]) := by
  obtain ⟨v1, v2, v3, v4, v5, v6, v7, v8, v9, v10,
    h1, h2, h3, h4, h5, h6, h7, h8, h9, h10, hlist⟩ := computePointsList_eq r
  refine ⟨v1, v2, v3, v4, v5, v6, v7, v8, v9, v10,
    h1, h2, h3, h4, h5, h6, h7, h8, h9, h10, ?_⟩
  simp only [compute_points, hlist, exbind_ok]
  cases hh : getData r "htp_pct" with
  | none => rfl
  | some h =>
    by_cases hlt : h < 6.5
    · simp only [if_pos hlt]
      with_unfolding_all rfl
    · simp only [if_neg hlt]

/-- Transfers a bound along two lookups of the same key. -/
theorem bound_of_lookup {pts : List (String × ℚ)} {k : String} {v w maxPts : ℚ}
    (hv : pts.lookup k = some v) (hw : pts.lookup k = some w)
    (hb : 0 ≤ w ∧ w ≤ maxPts) : 0 ≤ v ∧ v ≤ maxPts := by
  rw [hv] at hw
  exact (Option.some.inj hw) ▸ hb

/-- Concrete check: halving any protection tier value keeps it in `[0, 5]`. -/
theorem protection_half_tier_bounds : ∀ t ∈ THRESHOLDS,
    0 ≤ round2 (round2 (5 * multOf (resolveRule METRIC_RULES "protection_pct").multipliers t) / 2) ∧
    round2 (round2 (5 * multOf (resolveRule METRIC_RULES "protection_pct").multipliers t) / 2) ≤ 5 := by
  with_unfolding_all decide

/-- Halving any value `percent_to_points` returns for the protection metric
keeps it in `[0, 5]`. -/
theorem protection_half_bounds {perc : Option ℚ} {v : ℚ}
    (h : percent_to_points "protection_pct" perc = .ok v) :
    0 ≤ round2 (v / 2) ∧ round2 (v / 2) ≤ 5 := by
  rcases ptp_cases (by with_unfolding_all rfl :
      METRIC_MAX_POINTS.lookup "protection_pct" = some 5) h with rfl | ⟨t, htm, rfl⟩
  · constructor <;> with_unfolding_all decide
  · exact protection_half_tier_bounds t htm

/-! ### Claim theorems -/

/-- C10: for every metric identifier, known or not, `percent_to_points` with an
absent percentage returns 0 points and does not raise: the absent check
precedes the identifier validation, exhibited on an identifier outside the
metric definition set. -/
theorem C10_absent_before_validation :
    (∀ name : String, percent_to_points name none = .ok 0) ∧
    METRIC_MAX_POINTS.lookup "not_a_metric" = none ∧
    percent_to_points "not_a_metric" none = .ok 0 := by
  exact ⟨fun name => rfl, by with_unfolding_all rfl, rfl⟩

/-- C5 counterexample: a metric whose declared multiplier map is missing the
boundary the tier scan selects (80 for percentage 83) does NOT fail: the
multiplier defaults to 0.0 and scoring returns 0 points, raising no error. -/
theorem C5_counterexample :
    THRESHOLDS.find? (fun t => decide (t ≤ (83:ℚ))) = some 80 ∧
    (FIVE_POINT_MULTIPLIERS.filter (fun kv => kv.1 != 80)).lookup (80:ℚ) = none ∧
    percent_to_points_with
      [("protection_pct", ⟨FIVE_POINT_MULTIPLIERS.filter (fun kv => kv.1 != 80), false⟩)]
      "protection_pct" (some 83) = .ok 0 ∧
    ¬ ∃ e : CalcError, percent_to_points_with
      [("protection_pct", ⟨FIVE_POINT_MULTIPLIERS.filter (fun kv => kv.1 != 80), false⟩)]
      "protection_pct" (some 83) = .error e := by
  refine ⟨by with_unfolding_all rfl, by with_unfolding_all rfl, by with_unfolding_all rfl, ?_⟩
  rintro ⟨e, he⟩
  rw [show percent_to_points_with
      [("protection_pct", ⟨FIVE_POINT_MULTIPLIERS.filter (fun kv => kv.1 != 80), false⟩)]
      "protection_pct" (some 83) = .ok 0 from by with_unfolding_all rfl] at he
  exact Except.noConfusion he

/-- C5 (amended): scoring an unknown metric identifier fails immediately with
the configuration error (`KeyError`); a multiplier map missing the selected
boundary does NOT fail — the multiplier defaults to 0.0 and the metric scores
0 points. -/
theorem C5_amended_config_errors :
    (∀ (name : String) (p : ℚ), METRIC_MAX_POINTS.lookup name = none →
      percent_to_points name (some p) = .error (.unknownMetric name)) ∧
    percent_to_points_with
      [("protection_pct", ⟨FIVE_POINT_MULTIPLIERS.filter (fun kv => kv.1 != 80), false⟩)]
      "protection_pct" (some 83) = .ok 0 := by
  exact ⟨fun name p h => ptp_unknown p h, by with_unfolding_all rfl⟩

/-- C5 witness: the amended theorem applied at the unknown identifier
"not_a_metric" with percentage 50. -/
theorem C5_witness :
    percent_to_points "not_a_metric" (some 50) = .error (.unknownMetric "not_a_metric") :=
  C5_amended_config_errors.1 "not_a_metric" 50 (by with_unfolding_all rfl)

/-- C6: `needed_to_target` fails with the invalid-argument error exactly when
`days_in_month ≤ 0`; for `days_in_month ≥ 1` it returns
`max(0, ceil(goal/days × day × target/100 − current))`; the result is never
negative and is 0 whenever the current value meets the paced expectation; and
the end-to-end example (goal 100, current 40, day 14 of 28, target 80%)
returns 0. -/
theorem C6_needed_to_target :
    (∀ (cv g : ℚ) (day days : ℤ) (tp : ℚ), days ≤ 0 →
      needed_to_target cv g day days tp = .error .invalidDays) ∧
    (∀ (cv g : ℚ) (day days : ℤ) (tp : ℚ), 1 ≤ days →
      needed_to_target cv g day days tp =
        .ok (max 0 ⌈g / (days:ℚ) * (day:ℚ) * (tp / 100) - cv⌉)) ∧
    (∀ (cv g : ℚ) (day days : ℤ) (tp : ℚ) (v : ℤ),
      needed_to_target cv g day days tp = .ok v →
      0 ≤ v ∧ (g / (days:ℚ) * (day:ℚ) * (tp / 100) ≤ cv → v = 0)) ∧
    needed_to_target 40 100 14 28 80 = .ok 0 := by
  refine ⟨?_, ?_, ?_, ?_⟩
  · intro cv g day days tp h
    unfold needed_to_target
    rw [if_pos h]
  · intro cv g day days tp h
    unfold needed_to_target
    rw [if_neg (by omega : ¬ days ≤ 0)]
  · intro cv g day days tp v h
    unfold needed_to_target at h
    by_cases hd : days ≤ 0
    · rw [if_pos hd] at h
      exact absurd h (fun hc => Except.noConfusion hc)
    · rw [if_neg hd] at h
      obtain rfl : max 0 ⌈g / (days:ℚ) * (day:ℚ) * (tp / 100) - cv⌉ = v := Except.ok.inj h
      refine ⟨le_max_left _ _, fun hle => ?_⟩
      have hc : ⌈g / (days:ℚ) * (day:ℚ) * (tp / 100) - cv⌉ ≤ 0 :=
        Int.ceil_le.2 (by exact_mod_cast sub_nonpos.2 hle)
      exact max_eq_left hc
  · with_unfolding_all rfl

/-- C6 witness: the theorem applied at the spec's example (days in period 28)
and at an invalid period length (0 days). -/
theorem C6_witness :
    needed_to_target 40 100 14 28 80 =
      .ok (max 0 ⌈(100:ℚ) / (28:ℚ) * (14:ℚ) * ((80:ℚ) / 100) - 40⌉) ∧
    needed_to_target 1 1 1 0 1 = .error .invalidDays :=
  ⟨C6_needed_to_target.2.1 40 100 14 28 80 (by norm_num),
   C6_needed_to_target.1 1 1 1 0 1 (by norm_num)⟩

/-- C2: for every known metric, an absent percentage scores 0; a sub-50
percentage scores 0 when the rule does not permit sub-50 scoring; otherwise
the score is `round2(maxPts * m)` where `m` is the metric map's multiplier at
the greatest boundary `≤ p`; and the end-to-end example (five-point map,
`allow_below_50 = false`, max points 5, percentage 83) scores 5.00. -/
theorem C2_scoreMetric_semantics :
    (∀ name maxPts, (name, maxPts) ∈ METRIC_MAX_POINTS →
      percent_to_points name none = .ok 0 ∧
      (∀ p : ℚ, p < 50 → (resolveRule METRIC_RULES name).allow_below_50 = false →
        percent_to_points name (some p) = .ok 0) ∧
      (∀ p : ℚ, ¬(p < 50 ∧ (resolveRule METRIC_RULES name).allow_below_50 = false) →
        ∃ t ∈ THRESHOLDS, t ≤ p ∧ (∀ u ∈ THRESHOLDS, u ≤ p → u ≤ t) ∧
          percent_to_points name (some p) =
            .ok (round2 (maxPts * multOf (resolveRule METRIC_RULES name).multipliers t)))) ∧
    percent_to_points "protection_pct" (some 83) = .ok 5 := by
  refine ⟨?_, by with_unfolding_all rfl⟩
  intro name maxPts hmem
  have hlk := lookup_of_mem_MMP hmem
  have hal := allow_false_of_mem_MMP hmem
  refine ⟨rfl, fun p hp hal' => ptp_below50 hlk hp hal', ?_⟩
  intro p hcond
  have h50 : (50:ℚ) ≤ p := by
    by_contra hlt
    exact hcond ⟨not_le.1 hlt, hal⟩
  obtain ⟨t, hfind, htm, htle, hmax⟩ := tier_find_spec h50
  exact ⟨t, htm, htle, hmax, ptp_tier hlk hcond hfind⟩

/-- C2 witness: the theorem applied at metric "opps_pct" with percentage 83. -/
theorem C2_witness :
    (percent_to_points "opps_pct" none = .ok 0) ∧
    ∃ t ∈ THRESHOLDS, t ≤ (83:ℚ) ∧ (∀ u ∈ THRESHOLDS, u ≤ (83:ℚ) → u ≤ t) ∧
      percent_to_points "opps_pct" (some 83) =
        .ok (round2 (10 * multOf (resolveRule METRIC_RULES "opps_pct").multipliers t)) := by
  obtain ⟨h0, -, h3⟩ :=
    C2_scoreMetric_semantics.1 "opps_pct" 10 (by with_unfolding_all decide)
  exact ⟨h0, h3 83 (by with_unfolding_all decide)⟩

/-- C3: in `compute_points`, when `htp_pct` is present and `< 6.5` the
protection entry equals exactly half of the unadjusted tier-lookup value,
re-rounded to 2 decimals; when `htp_pct` is absent or `≥ 6.5` it equals the
unadjusted value; every other metric's entry is its plain `percent_to_points`
value, unaffected by `htp_pct`. -/
theorem C3_htp_adjustment (r : Record) :
    ∃ pts u, compute_points r = .ok pts ∧
      percent_to_points "protection_pct" (getData r "protection_pct") = .ok u ∧
      (getData r "htp_pct" = none → pts.lookup "protection_points" = some u) ∧
      (∀ q : ℚ, getData r "htp_pct" = some q → 6.5 ≤ q →
        pts.lookup "protection_points" = some u) ∧
      (∀ q : ℚ, getData r "htp_pct" = some q → q < 6.5 →
        pts.lookup "protection_points" = some (round2 (u / 2))) ∧
      (∀ name maxPts, (name, maxPts) ∈ METRIC_MAX_POINTS → name ≠ "protection_pct" →
        ∃ w, percent_to_points name (getData r name) = .ok w ∧
          pts.lookup (pointsKey name) = some w) := by
  obtain ⟨v1, v2, v3, v4, v5, v6, v7, v8, v9, v10,
    h1, h2, h3, h4, h5, h6, h7, h8, h9, h10, heq⟩ := compute_points_eq r
  cases hh : getData r "htp_pct" with
  | none =>
    simp only [hh] at heq
    refine ⟨_, v5, heq, h5, fun _ => by with_unfolding_all rfl, ?_, ?_, ?_⟩
    · intro q hc _
      exact Option.noConfusion hc
    · intro q hc _
      exact Option.noConfusion hc
    · intro name maxPts hmem hne
      fin_cases hmem <;>
        first
          | exact absurd rfl hne
          | exact ⟨_, h1, by with_unfolding_all rfl⟩
          | exact ⟨_, h2, by with_unfolding_all rfl⟩
          | exact ⟨_, h3, by with_unfolding_all rfl⟩
          | exact ⟨_, h4, by with_unfolding_all rfl⟩
          | exact ⟨_, h6, by with_unfolding_all rfl⟩
          | exact ⟨_, h7, by with_unfolding_all rfl⟩
          | exact ⟨_, h8, by with_unfolding_all rfl⟩
          | exact ⟨_, h9, by with_unfolding_all rfl⟩
          | exact ⟨_, h10, by with_unfolding_all rfl⟩
  | some hq =>
    by_cases hlt : hq < 6.5
    · simp only [hh, if_pos hlt] at heq
      refine ⟨_, v5, heq, h5, ?_, ?_, ?_, ?_⟩
      · intro hc
        exact Option.noConfusion hc
      · intro q hc hge
        obtain rfl : hq = q := Option.some.inj hc
        exact absurd hge (not_le.2 hlt)
      · intro q hc _
        with_unfolding_all rfl
      · intro name maxPts hmem hne
        fin_cases hmem <;>
          first
            | exact absurd rfl hne
            | exact ⟨_, h1, by with_unfolding_all rfl⟩
            | exact ⟨_, h2, by with_unfolding_all rfl⟩
            | exact ⟨_, h3, by with_unfolding_all rfl⟩
            | exact ⟨_, h4, by with_unfolding_all rfl⟩
            | exact ⟨_, h6, by with_unfolding_all rfl⟩
            | exact ⟨_, h7, by with_unfolding_all rfl⟩
            | exact ⟨_, h8, by with_unfolding_all rfl⟩
            | exact ⟨_, h9, by with_unfolding_all rfl⟩
            | exact ⟨_, h10, by with_unfolding_all rfl⟩
    · simp only [hh, if_neg hlt] at heq
      refine ⟨_, v5, heq, h5, ?_, ?_, ?_, ?_⟩
      · intro hc
        exact Option.noConfusion hc
      · intro q _ _
        with_unfolding_all rfl
      · intro q hc hlt'
        obtain rfl : hq = q := Option.some.inj hc
        exact absurd hlt' hlt
      · intro name maxPts hmem hne
        fin_cases hmem <;>
          first
            | exact absurd rfl hne
            | exact ⟨_, h1, by with_unfolding_all rfl⟩
            | exact ⟨_, h2, by with_unfolding_all rfl⟩
            | exact ⟨_, h3, by with_unfolding_all rfl⟩
            | exact ⟨_, h4, by with_unfolding_all rfl⟩
            | exact ⟨_, h6, by with_unfolding_all rfl⟩
            | exact ⟨_, h7, by with_unfolding_all rfl⟩
            | exact ⟨_, h8, by with_unfolding_all rfl⟩
            | exact ⟨_, h9, by with_unfolding_all rfl⟩
            | exact ⟨_, h10, by with_unfolding_all rfl⟩

/-- C3 witness: the theorem applied to a record with protection at 83% and
`htp_pct` 5 (< 6.5): the protection entry is half the unadjusted score. -/
theorem C3_witness :
    ∃ pts u,
      compute_points ⟨[("protection_pct", some 83), ("htp_pct", some 5)], "", []⟩ = .ok pts ∧
      percent_to_points "protection_pct"
        (getData ⟨[("protection_pct", some 83), ("htp_pct", some 5)], "", []⟩ "protection_pct") =
        .ok u ∧
      pts.lookup "protection_points" = some (round2 (u / 2)) := by
  obtain ⟨pts, u, hcp, hu, -, -, hlt, -⟩ :=
    C3_htp_adjustment ⟨[("protection_pct", some 83), ("htp_pct", some 5)], "", []⟩
  exact ⟨pts, u, hcp, hu, hlt 5 (by with_unfolding_all rfl) (by norm_num)⟩

/-- C7: every score is within `[0, maxPts]` of its metric: directly out of
`percent_to_points`, and for every entry of `compute_points` (after the
cross-metric adjustment), for every known metric and every input. -/
theorem C7_points_within_bounds :
    (∀ name maxPts (perc : Option ℚ) (v : ℚ), (name, maxPts) ∈ METRIC_MAX_POINTS →
      percent_to_points name perc = .ok v → 0 ≤ v ∧ v ≤ maxPts) ∧
    (∀ (r : Record) (pts : List (String × ℚ)), compute_points r = .ok pts →
      ∀ name maxPts, (name, maxPts) ∈ METRIC_MAX_POINTS →
        ∀ v, pts.lookup (pointsKey name) = some v → 0 ≤ v ∧ v ≤ maxPts) := by
  refine ⟨fun name maxPts perc v hmem h => ptp_bounds hmem h, ?_⟩
  intro r pts hcp name maxPts hmem v hv
  obtain ⟨v1, v2, v3, v4, v5, v6, v7, v8, v9, v10,
    h1, h2, h3, h4, h5, h6, h7, h8, h9, h10, heq⟩ := compute_points_eq r
  rw [hcp] at heq
  obtain rfl := Except.ok.inj heq
  cases hh : getData r "htp_pct" with
  | none =>
    simp only [hh] at hv
    fin_cases hmem <;>
      first
        | exact bound_of_lookup hv (by with_unfolding_all rfl)
            (ptp_bounds (by with_unfolding_all decide) h1)
        | exact bound_of_lookup hv (by with_unfolding_all rfl)
            (ptp_bounds (by with_unfolding_all decide) h2)
        | exact bound_of_lookup hv (by with_unfolding_all rfl)
            (ptp_bounds (by with_unfolding_all decide) h3)
        | exact bound_of_lookup hv (by with_unfolding_all rfl)
            (ptp_bounds (by with_unfolding_all decide) h4)
        | exact bound_of_lookup hv (by with_unfolding_all rfl)
            (ptp_bounds (by with_unfolding_all decide) h5)
        | exact bound_of_lookup hv (by with_unfolding_all rfl)
            (ptp_bounds (by with_unfolding_all decide) h6)
        | exact bound_of_lookup hv (by with_unfolding_all rfl)
            (ptp_bounds (by with_unfolding_all decide) h7)
        | exact bound_of_lookup hv (by with_unfolding_all rfl)
            (ptp_bounds (by with_unfolding_all decide) h8)
        | exact bound_of_lookup hv (by with_unfolding_all rfl)
            (ptp_bounds (by with_unfolding_all decide) h9)
        | exact bound_of_lookup hv (by with_unfolding_all rfl)
            (ptp_bounds (by with_unfolding_all decide) h10)
  | some hq =>
    by_cases hlt : hq < 6.5
    · simp only [hh, if_pos hlt] at hv
      fin_cases hmem <;>
        first
          | exact bound_of_lookup hv (by with_unfolding_all rfl)
              (ptp_bounds (by with_unfolding_all decide) h1)
          | exact bound_of_lookup hv (by with_unfolding_all rfl)
              (ptp_bounds (by with_unfolding_all decide) h2)
          | exact bound_of_lookup hv (by with_unfolding_all rfl)
              (ptp_bounds (by with_unfolding_all decide) h3)
          | exact bound_of_lookup hv (by with_unfolding_all rfl)
              (ptp_bounds (by with_unfolding_all decide) h4)
          | exact bound_of_lookup hv (by with_unfolding_all rfl)
              (protection_half_bounds h5)
          | exact bound_of_lookup hv (by with_unfolding_all rfl)
              (ptp_bounds (by with_unfolding_all decide) h6)
          | exact bound_of_lookup hv (by with_unfolding_all rfl)
              (ptp_bounds (by with_unfolding_all decide) h7)
          | exact bound_of_lookup hv (by with_unfolding_all rfl)
              (ptp_bounds (by with_unfolding_all decide) h8)
          | exact bound_of_lookup hv (by with_unfolding_all rfl)
              (ptp_bounds (by with_unfolding_all decide) h9)
          | exact bound_of_lookup hv (by with_unfolding_all rfl)
              (ptp_bounds (by with_unfolding_all decide) h10)
    · simp only [hh, if_neg hlt] at hv
      fin_cases hmem <;>
        first
          | exact bound_of_lookup hv (by with_unfolding_all rfl)
              (ptp_bounds (by with_unfolding_all decide) h1)
          | exact bound_of_lookup hv (by with_unfolding_all rfl)
              (ptp_bounds (by with_unfolding_all decide) h2)
          | exact bound_of_lookup hv (by with_unfolding_all rfl)
              (ptp_bounds (by with_unfolding_all decide) h3)
          | exact bound_of_lookup hv (by with_unfolding_all rfl)
              (ptp_bounds (by with_unfolding_all decide) h4)
          | exact bound_of_lookup hv (by with_unfolding_all rfl)
              (ptp_bounds (by with_unfolding_all decide) h5)
          | exact bound_of_lookup hv (by with_unfolding_all rfl)
              (ptp_bounds (by with_unfolding_all decide) h6)
          | exact bound_of_lookup hv (by with_unfolding_all rfl)
              (ptp_bounds (by with_unfolding_all decide) h7)
          | exact bound_of_lookup hv (by with_unfolding_all rfl)
              (ptp_bounds (by with_unfolding_all decide) h8)
          | exact bound_of_lookup hv (by with_unfolding_all rfl)
              (ptp_bounds (by with_unfolding_all decide) h9)
          | exact bound_of_lookup hv (by with_unfolding_all rfl)
              (ptp_bounds (by with_unfolding_all decide) h10)

/-- C7 witness: the theorem applied at metric "opps_pct", percentage 83,
score 8. -/
theorem C7_witness : 0 ≤ (8:ℚ) ∧ (8:ℚ) ≤ 10 :=
  C7_points_within_bounds.1 "opps_pct" 10 (some 83) 8
    (by with_unfolding_all decide) (by with_unfolding_all rfl)

/-- C8: for every known metric, `percent_to_points` is monotonically
non-decreasing in the percentage. -/
theorem C8_scoreMetric_monotone :
    ∀ name maxPts, (name, maxPts) ∈ METRIC_MAX_POINTS → ∀ p1 p2 : ℚ, p1 ≤ p2 →
      ∀ v1 v2, percent_to_points name (some p1) = .ok v1 →
        percent_to_points name (some p2) = .ok v2 → v1 ≤ v2 := by
  intro name maxPts hmem p1 p2 hp v1 v2 h1 h2
  have hlk := lookup_of_mem_MMP hmem
  have hal := allow_false_of_mem_MMP hmem
  by_cases hp1 : p1 < 50
  · rw [ptp_below50 hlk hp1 hal] at h1
    obtain rfl : (0:ℚ) = v1 := Except.ok.inj h1
    exact (ptp_bounds hmem h2).1
  · have h50 : (50:ℚ) ≤ p1 := not_lt.1 hp1
    have h50' : (50:ℚ) ≤ p2 := le_trans h50 hp
    obtain ⟨t1, hf1, htm1, htle1, hmax1⟩ := tier_find_spec h50
    obtain ⟨t2, hf2, htm2, htle2, hmax2⟩ := tier_find_spec h50'
    rw [ptp_tier hlk (fun hc => hp1 hc.1) hf1] at h1
    rw [ptp_tier hlk (fun hc => absurd hc.1 (not_lt.2 h50')) hf2] at h2
    obtain rfl := Except.ok.inj h1
    obtain rfl := Except.ok.inj h2
    have ht12 : t1 ≤ t2 := hmax2 t1 htm1 (le_trans htle1 hp)
    exact tier_mono (name, maxPts) hmem t1 htm1 t2 htm2 ht12

/-- C8 witness: the theorem applied at metric "opps_pct" with percentages 60
and 90, whose scores are 6 and 9. -/
theorem C8_witness : (6:ℚ) ≤ 9 :=
  C8_scoreMetric_monotone "opps_pct" 10 (by with_unfolding_all decide) 60 90
    (by norm_num) 6 9 (by with_unfolding_all rfl) (by with_unfolding_all rfl)

/-! ### Recommendation-engine lemmas -/

theorem exbind_err {α β : Type} (e : CalcError) (f : α → Except CalcError β) :
    (Except.error e >>= f) = (.error e : Except CalcError β) := rfl

/-- A recommendation `recFor` emits carries its metric, requires a defined
goal, and has a strictly positive point gain. -/
theorem recFor_some {goals current : List (String × ℚ)} {d dd : ℤ} {m : String}
    {rec : Recommendation}
    (h : recFor goals current d dd m = .ok (some rec)) :
    rec.metric = m ∧ (goals.lookup m).isSome ∧ 0 < rec.point_gain := by
  cases hg : goals.lookup m with
  | none =>
    simp only [recFor, hg] at h
    exact absurd (Except.ok.inj h) fun hc => Option.noConfusion hc
  | some gv =>
    simp only [recFor, hg] at h
    split at h
    · exact Except.noConfusion h
    · split at h
      · exact absurd (Except.ok.inj h) fun hc => Option.noConfusion hc
      · split at h
        · exact Except.noConfusion h
        · split at h
          · exact absurd (Except.ok.inj h) fun hc => Option.noConfusion hc
          · rename_i hgain
            split at h
            · exact Except.noConfusion h
            · obtain rfl := Option.some.inj (Except.ok.inj h)
              exact ⟨rfl, rfl, not_le.1 hgain⟩

/-- Every recommendation collected by `buildRecs` has a defined goal and a
strictly positive point gain. -/
theorem buildRecs_mem {goals current : List (String × ℚ)} {d dd : ℤ} :
    ∀ (ml : List (String × ℚ)) (recs : List Recommendation),
      buildRecs goals current d dd ml = .ok recs →
      ∀ rec ∈ recs, (goals.lookup rec.metric).isSome ∧ 0 < rec.point_gain := by
  intro ml
  induction ml with
  | nil =>
    intro recs h rec hmem
    obtain rfl : ([] : List Recommendation) = recs := Except.ok.inj h
    exact absurd hmem (List.not_mem_nil rec)
  | cons head rest ih =>
    intro recs h rec hmem
    obtain ⟨m, x⟩ := head
    simp only [buildRecs] at h
    cases hr : recFor goals current d dd m with
    | error e =>
      rw [hr, exbind_err] at h
      exact Except.noConfusion h
    | ok r? =>
      rw [hr, exbind_ok] at h
      cases hb : buildRecs goals current d dd rest with
      | error e =>
        rw [hb, exbind_err] at h
        exact Except.noConfusion h
      | ok rest' =>
        rw [hb, exbind_ok] at h
        cases r? with
        | none =>
          obtain rfl : rest' = recs := Except.ok.inj h
          exact ih rest' hb rec hmem
        | some r0 =>
          obtain rfl : r0 :: rest' = recs := Except.ok.inj h
          rcases List.mem_cons.1 hmem with rfl | hmem'
          · obtain ⟨hm, hsome, hgain⟩ := recFor_some hr
            exact ⟨hm ▸ hsome, hgain⟩
          · exact ih rest' hb rec hmem'

theorem mem_insertByGainDesc {x r : Recommendation} : ∀ {l : List Recommendation},
    x ∈ insertByGainDesc r l ↔ x = r ∨ x ∈ l := by
  intro l
  induction l with
  | nil => simp [insertByGainDesc]
  | cons a l ih =>
    rw [insertByGainDesc]
    split
    · rw [List.mem_cons, ih, List.mem_cons]
      tauto
    · simp [List.mem_cons]

theorem mem_sortByGainDesc {x : Recommendation} : ∀ {l : List Recommendation},
    x ∈ sortByGainDesc l → x ∈ l := by
  intro l
  induction l with
  | nil => simp [sortByGainDesc]
  | cons a l ih =>
    intro h
    rcases mem_insertByGainDesc.1 h with rfl | h'
    · exact List.mem_cons_self _ _
    · exact List.mem_cons_of_mem _ (ih h')

theorem pairwise_insertByGainDesc {r : Recommendation} : ∀ {l : List Recommendation},
    l.Pairwise (fun a b => b.point_gain ≤ a.point_gain) →
    (insertByGainDesc r l).Pairwise (fun a b => b.point_gain ≤ a.point_gain) := by
  intro l
  induction l with
  | nil => intro _; simp [insertByGainDesc]
  | cons a l ih =>
    intro hp
    obtain ⟨ha, hl⟩ := List.pairwise_cons.1 hp
    rw [insertByGainDesc]
    split
    next hlt =>
      refine List.pairwise_cons.2 ⟨?_, ih hl⟩
      intro y hy
      rcases mem_insertByGainDesc.1 hy with rfl | hy'
      · exact le_of_lt hlt
      · exact ha y hy'
    next hge =>
      refine List.pairwise_cons.2 ⟨?_, hp⟩
      intro y hy
      rcases List.mem_cons.1 hy with rfl | hy'
      · exact not_lt.1 hge
      · exact le_trans (ha y hy') (not_lt.1 hge)

/-- `sortByGainDesc` sorts by point gain, descending. -/
theorem sortByGainDesc_sorted : ∀ l : List Recommendation,
    (sortByGainDesc l).Pairwise (fun a b => b.point_gain ≤ a.point_gain) := by
  intro l
  induction l with
  | nil => simp [sortByGainDesc]
  | cons a l ih => exact pairwise_insertByGainDesc ih

theorem filter_insertByGainDesc (r : Recommendation) (g : ℚ) : ∀ l : List Recommendation,
    (insertByGainDesc r l).filter (fun x => x.point_gain == g) =
      if r.point_gain = g then r :: l.filter (fun x => x.point_gain == g)
      else l.filter (fun x => x.point_gain == g) := by
  intro l
  induction l with
  | nil =>
    rw [insertByGainDesc]
    by_cases hr : r.point_gain = g
    · rw [if_pos hr, List.filter_cons, if_pos (by simpa using hr)]
    · rw [if_neg hr, List.filter_cons, if_neg (by simpa using hr)]
  | cons a l ih =>
    rw [insertByGainDesc]
    split
    next hlt =>
      rw [List.filter_cons, ih, List.filter_cons]
      by_cases hr : r.point_gain = g
      · have ha : ¬(a.point_gain = g) := by
          intro hag
          rw [hr, hag] at hlt
          exact lt_irrefl g hlt
        rw [if_pos hr, if_pos hr, if_neg (by simpa using ha), if_neg (by simpa using ha)]
      · rw [if_neg hr, if_neg hr]
    next hge =>
      rw [List.filter_cons]
      by_cases hr : r.point_gain = g
      · rw [if_pos (by simpa using hr), if_pos hr]
      · rw [if_neg (by simpa using hr), if_neg hr]

/-- `sortByGainDesc` is stable: elements of any one point gain keep their
original relative order. -/
theorem sortByGainDesc_stable : ∀ (l : List Recommendation) (g : ℚ),
    (sortByGainDesc l).filter (fun x => x.point_gain == g) =
      l.filter (fun x => x.point_gain == g) := by
  intro l g
  induction l with
  | nil => rfl
  | cons a l ih =>
    have hs : sortByGainDesc (a :: l) = insertByGainDesc a (sortByGainDesc l) := rfl
    rw [hs, filter_insertByGainDesc, ih, List.filter_cons]
    by_cases ha : a.point_gain = g
    · rw [if_pos ha, if_pos (by simpa using ha)]
    · rw [if_neg ha, if_neg (by simpa using ha)]

/-- The recommendations of any successful `calculate_needed_by_date` call are
the collected per-metric recommendations, sorted by `sortByGainDesc`. -/
theorem calc_recs {goals current : List (String × ℚ)} {d dd : ℤ} {tr : ℚ} {pl : Plan}
    (h : calculate_needed_by_date goals current d dd tr = .ok pl) :
    ∃ recs, buildRecs goals current d dd METRIC_MAX_POINTS = .ok recs ∧
      pl.recommendations = sortByGainDesc recs := by
  unfold calculate_needed_by_date at h
  dsimp only at h
  cases hcp : compute_points ⟨current.map (fun kv => (kv.1, some kv.2)), "", []⟩ with
  | error e =>
    rw [hcp, exbind_err] at h
    exact Except.noConfusion h
  | ok cpm =>
    rw [hcp, exbind_ok] at h
    cases hbr : buildRecs goals current d dd METRIC_MAX_POINTS with
    | error e =>
      rw [hbr, exbind_err] at h
      exact Except.noConfusion h
    | ok recs =>
      rw [hbr, exbind_ok] at h
      obtain rfl : (⟨tr, _, _, _, sortByGainDesc recs⟩ : Plan) = pl := Except.ok.inj h
      exact ⟨recs, rfl, rfl⟩

/-- C1 counterexample: at current percent 55 (gate off), the source's
next-threshold scan returns 125 — the HIGHEST boundary above 55 — while the
spec's "lowest boundary strictly greater than currentPercent" is 60, and the
full `calculate_needed_by_date` pipeline indeed recommends threshold 125. -/
theorem C1_counterexample :
    nextThreshold false 55 = some 125 ∧
    nextThresholdSpecLowest false 55 = some 60 ∧
    (calculate_needed_by_date [("opps_pct", 100)] [("opps_pct", 55)] 14 28 10).map
      (fun pl => pl.recommendations.map (fun rec => (rec.metric, rec.next_threshold))) =
      .ok [("opps_pct", 125)] ∧
    (125 : ℚ) ≠ 60 :=
  ⟨by with_unfolding_all rfl, by with_unfolding_all rfl, by with_unfolding_all rfl,
   by norm_num⟩

/-- C1 (amended): the next-threshold scan of `calculate_needed_by_date` walks
the descending `THRESHOLDS` list and takes the FIRST boundary strictly greater
than the current percent that passes the gate — i.e. the highest such
boundary, which is 125 whenever the current percent is below 125 (125 always
passes the gate); when the current percent is at or above 125 no boundary
qualifies and the metric is skipped. -/
theorem C1_amended_nextThreshold : ∀ (allow : Bool) (p : ℚ),
    nextThreshold allow p = if p < 125 then some 125 else none := by
  intro allow p
  by_cases h : p < 125
  · rw [if_pos h]
    have h50 : (decide ((50:ℚ) ≤ 125)) = true := by with_unfolding_all rfl
    unfold nextThreshold THRESHOLDS
    rw [List.find?_cons_of_pos]
    show (decide (p < 125) && (decide ((50:ℚ) ≤ 125) || allow)) = true
    rw [decide_eq_true h, h50]
    rfl
  · rw [if_neg h]
    apply List.find?_eq_none.2
    intro t ht
    have ht125 : t ≤ 125 := by fin_cases ht <;> norm_num
    simp only [Bool.and_eq_true, decide_eq_true_eq, not_and]
    intro hpt hB
    exact absurd (lt_of_lt_of_le hpt (le_trans ht125 (not_lt.1 h))) (lt_irrefl p)

/-- C4 counterexample: a metric with a goal but NO current value still yields
a recommendation — the missing current value defaults to 0.0 (percent 0,
current points 0, next threshold 125, gain 10). -/
theorem C4_counterexample :
    List.lookup "opps_pct" ([] : List (String × ℚ)) = none ∧
    (calculate_needed_by_date [("opps_pct", 100)] [] 14 28 10).map
      (fun pl => pl.recommendations) =
      .ok [⟨"opps_pct", 0, 125, 10, 63⟩] :=
  ⟨rfl, by with_unfolding_all rfl⟩

/-- C4 (amended): `calculate_needed_by_date` emits a recommendation for a
metric only when a goal is defined for it and the point gain is strictly
positive; a missing current value does not block emission (it defaults to 0). -/
theorem C4_amended_emission :
    ∀ (goals current : List (String × ℚ)) (day days : ℤ) (tr : ℚ) (pl : Plan),
      calculate_needed_by_date goals current day days tr = .ok pl →
      ∀ rec ∈ pl.recommendations, (goals.lookup rec.metric).isSome ∧ 0 < rec.point_gain := by
  intro goals current day days tr pl h rec hmem
  obtain ⟨recs, hbr, hrecs⟩ := calc_recs h
  rw [hrecs] at hmem
  exact buildRecs_mem METRIC_MAX_POINTS recs hbr rec (mem_sortByGainDesc hmem)

/-- C4 witness: the amended theorem applied to a one-metric plan (goal 100,
current 70): its single recommendation has a defined goal and gain 3 > 0. -/
theorem C4_witness :
    (List.lookup "opps_pct" [("opps_pct", (100:ℚ))]).isSome ∧ 0 < (3:ℚ) :=
  C4_amended_emission [("opps_pct", 100)] [("opps_pct", 70)] 14 28 10
    ⟨10, 100, 7, 93, [⟨"opps_pct", 70, 125, 3, 0⟩]⟩ (by with_unfolding_all rfl)
    ⟨"opps_pct", 70, 125, 3, 0⟩ (List.mem_singleton.2 rfl)

/-- C9 counterexample: with goals/current chosen so the per-metric point gains
in declaration order [opps, protection, rate_plan, csat] are [3, 5, 5, 1], the
output order is [protection, rate_plan, opps, csat] — NOT the claim's
[protection, rate_plan, csat, opps] (csat's gain 1 sorts after opps's 3). -/
theorem C9_counterexample :
    (buildRecs
      [("opps_pct", 100), ("protection_pct", 100), ("rate_plan_pct", 100), ("csat_pct", 100)]
      [("opps_pct", 70), ("protection_pct", 10), ("rate_plan_pct", 20), ("csat_pct", 70)]
      14 28 METRIC_MAX_POINTS).map (fun l => l.map (fun rec => (rec.metric, rec.point_gain))) =
      .ok [("opps_pct", 3), ("protection_pct", 5), ("rate_plan_pct", 5), ("csat_pct", 1)] ∧
    (calculate_needed_by_date
      [("opps_pct", 100), ("protection_pct", 100), ("rate_plan_pct", 100), ("csat_pct", 100)]
      [("opps_pct", 70), ("protection_pct", 10), ("rate_plan_pct", 20), ("csat_pct", 70)]
      14 28 10).map (fun pl => pl.recommendations.map (fun rec => rec.metric)) =
      .ok ["protection_pct", "rate_plan_pct", "opps_pct", "csat_pct"] ∧
    ["protection_pct", "rate_plan_pct", "opps_pct", "csat_pct"] ≠
      ["protection_pct", "rate_plan_pct", "csat_pct", "opps_pct"] :=
  ⟨by with_unfolding_all rfl, by with_unfolding_all rfl, by decide⟩

/-- C9 (amended): the recommendation list is sorted by point gain descending
with a stable tie-break (equal gains keep declaration order); on the claim's
example gains [3, 5, 5, 1] for [A, B, C, D] the output is [B, C, A, D] with B
before C (not [B, C, D, A]). -/
theorem C9_amended_sorted_stable :
    (∀ l : List Recommendation,
      (sortByGainDesc l).Pairwise (fun a b => b.point_gain ≤ a.point_gain)) ∧
    (∀ (l : List Recommendation) (g : ℚ),
      (sortByGainDesc l).filter (fun x => x.point_gain == g) =
        l.filter (fun x => x.point_gain == g)) ∧
    (∀ (goals current : List (String × ℚ)) (day days : ℤ) (tr : ℚ) (pl : Plan),
      calculate_needed_by_date goals current day days tr = .ok pl →
      pl.recommendations.Pairwise (fun a b => b.point_gain ≤ a.point_gain)) ∧
    (calculate_needed_by_date
      [("opps_pct", 100), ("protection_pct", 100), ("rate_plan_pct", 100), ("csat_pct", 100)]
      [("opps_pct", 70), ("protection_pct", 10), ("rate_plan_pct", 20), ("csat_pct", 70)]
      14 28 10).map (fun pl => pl.recommendations.map (fun rec => rec.metric)) =
      .ok ["protection_pct", "rate_plan_pct", "opps_pct", "csat_pct"] := by
  refine ⟨sortByGainDesc_sorted, sortByGainDesc_stable, ?_, by with_unfolding_all rfl⟩
  intro goals current day days tr pl h
  obtain ⟨recs, hbr, hrecs⟩ := calc_recs h
  rw [hrecs]
  exact sortByGainDesc_sorted recs

/-- C9 witness: the amended theorem's sortedness applied to the concrete
four-recommendation plan of the example. -/
theorem C9_witness :
    ([⟨"protection_pct", 10, 125, 5, 53⟩, ⟨"rate_plan_pct", 20, 125, 5, 43⟩,
      ⟨"opps_pct", 70, 125, 3, 0⟩, ⟨"csat_pct", 70, 125, 1, 0⟩] :
      List Recommendation).Pairwise (fun a b => b.point_gain ≤ a.point_gain) :=
  C9_amended_sorted_stable.2.2.1
    [("opps_pct", 100), ("protection_pct", 100), ("rate_plan_pct", 100), ("csat_pct", 100)]
    [("opps_pct", 70), ("protection_pct", 10), ("rate_plan_pct", 20), ("csat_pct", 70)]
    14 28 10
    ⟨10, 100, 11, 89,
     [⟨"protection_pct", 10, 125, 5, 53⟩, ⟨"rate_plan_pct", 20, 125, 5, 43⟩,
      ⟨"opps_pct", 70, 125, 3, 0⟩, ⟨"csat_pct", 70, 125, 1, 0⟩]⟩
    (by with_unfolding_all rfl)

end PowerRank
